import Mathlib

set_option maxHeartbeats 1000000
set_option maxRecDepth 100000

/- Verification development for the Finacc front-end: a shallow embedding of
   the response-cleaning and JSON-parsing logic of the analysis client
   (src/services/geminiService.ts), the upload state machine (src/App.tsx),
   and the file classification, filtering and export logic of the dashboard
   (src/components/FileUpload.tsx). -/

/- Whitespace class shared by the JSON grammar and the cleaning regexes,
   modelled as the four common ASCII whitespace characters. -/
def isWsChar (c : Char) : Bool :=
  c = ' ' || c = '\t' || c = '\n' || c = '\r'

def dropWs : List Char → List Char
  | [] => []
  | c :: cs => if isWsChar c then dropWs cs else c :: cs

def rdropWs (cs : List Char) : List Char :=
  (dropWs cs.reverse).reverse

def stripWs (cs : List Char) : List Char :=
  rdropWs (dropWs cs)

/- JSON values as produced by JSON.parse.  Numbers keep their source lexeme
   (no floating-point semantics are needed by any claim). -/
inductive Json where
  | jnull
  | jbool (b : Bool)
  | jnum (lexeme : String)
  | jstr (s : String)
  | jarr (elems : List Json)
  | jobj (fields : List (String × Json))

/- Value of one hexadecimal digit, by code point: 0-9, a-f, A-F. -/
def hexDigitVal (c : Char) : Option Nat :=
  let n := c.toNat
  if 48 ≤ n && n ≤ 57 then some (n - 48)
  else if 97 ≤ n && n ≤ 102 then some (n - 87)
  else if 65 ≤ n && n ≤ 70 then some (n - 55)
  else none

/- Body of a JSON string literal, after the opening quote: returns the decoded
   characters and the input remaining after the closing quote. -/
def parseStrBody : List Char → Option (List Char × List Char)
  | [] => none
  | '"' :: rest => some ([], rest)
  | '\\' :: esc =>
    match esc with
    | [] => none
    | e :: rest =>
      if e = '"' then (parseStrBody rest).map (fun p => ('"' :: p.1, p.2))
      else if e = '\\' then (parseStrBody rest).map (fun p => ('\\' :: p.1, p.2))
      else if e = '/' then (parseStrBody rest).map (fun p => ('/' :: p.1, p.2))
      else if e = 'b' then (parseStrBody rest).map (fun p => ('\x08' :: p.1, p.2))
      else if e = 'f' then (parseStrBody rest).map (fun p => ('\x0c' :: p.1, p.2))
      else if e = 'n' then (parseStrBody rest).map (fun p => ('\n' :: p.1, p.2))
      else if e = 'r' then (parseStrBody rest).map (fun p => ('\r' :: p.1, p.2))
      else if e = 't' then (parseStrBody rest).map (fun p => ('\t' :: p.1, p.2))
      else if e = 'u' then
        match rest with
        | h1 :: h2 :: h3 :: h4 :: rest2 =>
          match hexDigitVal h1, hexDigitVal h2, hexDigitVal h3, hexDigitVal h4 with
          | some a, some b, some c, some d =>
            (parseStrBody rest2).map
              (fun p => (Char.ofNat (4096 * a + 256 * b + 16 * c + d) :: p.1, p.2))
          | _, _, _, _ => none
        | _ => none
      else none
  | c :: rest =>
    if c.toNat < 32 then none
    else (parseStrBody rest).map (fun p => (c :: p.1, p.2))

def spanDigits : List Char → List Char × List Char
  | [] => ([], [])
  | c :: cs =>
    if c.isDigit then
      let p := spanDigits cs
      (c :: p.1, p.2)
    else ([], c :: cs)

def parseFracPart : List Char → Option (List Char × List Char)
  | '.' :: r =>
    match spanDigits r with
    | ([], _) => none
    | (ds, r2) => some ('.' :: ds, r2)
  | cs => some ([], cs)

def parseExpPart : List Char → Option (List Char × List Char)
  | c :: r =>
    if c = 'e' || c = 'E' then
      let sr : List Char × List Char :=
        match r with
        | '+' :: r2 => (['+'], r2)
        | '-' :: r2 => (['-'], r2)
        | _ => ([], r)
      match spanDigits sr.2 with
      | ([], _) => none
      | (ds, r2) => some (c :: (sr.1 ++ ds), r2)
    else some ([], c :: r)
  | [] => some ([], [])

/- One JSON number token in ECMA-404 grammar form (optional minus, integer
   part with no leading zero, optional fraction, optional exponent). -/
def parseNumTok (cs : List Char) : Option (List Char × List Char) :=
  let sr : List Char × List Char :=
    match cs with
    | '-' :: r => (['-'], r)
    | _ => ([], cs)
  match sr.2 with
  | [] => none
  | c :: r =>
    if c = '0' then
      match parseFracPart r with
      | none => none
      | some (f, r2) =>
        match parseExpPart r2 with
        | none => none
        | some (e, r3) => some (sr.1 ++ ['0'] ++ f ++ e, r3)
    else if c.isDigit then
      let ds := spanDigits r
      match parseFracPart ds.2 with
      | none => none
      | some (f, r2) =>
        match parseExpPart r2 with
        | none => none
        | some (e, r3) => some (sr.1 ++ (c :: ds.1) ++ f ++ e, r3)
    else none

mutual

def parseValue : Nat → List Char → Option (Json × List Char)
  | 0, _ => none
  | _ + 1, [] => none
  | f + 1, c :: cs =>
    if c = 'n' then
      match cs with
      | 'u' :: 'l' :: 'l' :: r => some (Json.jnull, r)
      | _ => none
    else if c = 't' then
      match cs with
      | 'r' :: 'u' :: 'e' :: r => some (Json.jbool true, r)
      | _ => none
    else if c = 'f' then
      match cs with
      | 'a' :: 'l' :: 's' :: 'e' :: r => some (Json.jbool false, r)
      | _ => none
    else if c = '"' then
      match parseStrBody cs with
      | some (s, r) => some (Json.jstr (String.mk s), r)
      | none => none
    else if c = '-' || c.isDigit then
      match parseNumTok (c :: cs) with
      | some (lex, r) => some (Json.jnum (String.mk lex), r)
      | none => none
    else if c = '[' then
      match dropWs cs with
      | ']' :: r => some (Json.jarr [], r)
      | cs2 =>
        match parseElems f cs2 with
        | some (vs, r) => some (Json.jarr vs, r)
        | none => none
    else if c = '\x7b' then
      match dropWs cs with
      | '\x7d' :: r => some (Json.jobj [], r)
      | cs2 =>
        match parseMembers f cs2 with
        | some (ms, r) => some (Json.jobj ms, r)
        | none => none
    else none

def parseElems : Nat → List Char → Option (List Json × List Char)
  | 0, _ => none
  | f + 1, cs =>
    match parseValue f cs with
    | none => none
    | some (v, r) =>
      match dropWs r with
      | ',' :: r2 =>
        match parseElems f (dropWs r2) with
        | some (vs, r3) => some (v :: vs, r3)
        | none => none
      | ']' :: r2 => some ([v], r2)
      | _ => none

def parseMembers : Nat → List Char → Option (List (String × Json) × List Char)
  | 0, _ => none
  | f + 1, cs =>
    match cs with
    | '"' :: cs1 =>
      match parseStrBody cs1 with
      | none => none
      | some (k, r) =>
        match dropWs r with
        | ':' :: r2 =>
          match parseValue f (dropWs r2) with
          | none => none
          | some (v, r3) =>
            match dropWs r3 with
            | ',' :: r4 =>
              match parseMembers f (dropWs r4) with
              | some (ms, r5) => some ((String.mk k, v) :: ms, r5)
              | none => none
            | '\x7d' :: r4 => some ([(String.mk k, v)], r4)
            | _ => none
        | _ => none
    | _ => none

end

/- Strict JSON.parse model: leading and trailing whitespace is tolerated,
   everything else must be consumed by exactly one JSON value. -/
def parseTop (u : List Char) : Option Json :=
  match parseValue (2 * u.length + 8) u with
  | some (v, r) => if r = [] then some v else none
  | none => none

def jsonParseS (s : String) : Option Json :=
  parseTop (stripWs s.data)

/- Model of the response cleaning in analyzeFinancialData: trim, then strip a
   leading fence marker written as three backticks plus the json token
   (regex caret-anchored, with any following whitespace), then a bare leading
   three-backtick marker, then a trailing three-backtick marker together with
   the whitespace run just before it. -/
def fenceJson : List Char := ['`', '`', '`', 'j', 's', 'o', 'n']

def fenceMark : List Char := ['`', '`', '`']

def stripFenceHead (fence cs : List Char) : List Char :=
  if fence.isPrefixOf cs then dropWs (cs.drop fence.length) else cs

def dropTail3 (cs : List Char) : List Char :=
  (cs.reverse.drop 3).reverse

def stripFenceTail (cs : List Char) : List Char :=
  if fenceMark.isSuffixOf cs then rdropWs (dropTail3 cs) else cs

def cleanText (cs : List Char) : List Char :=
  stripFenceTail (stripFenceHead fenceMark (stripFenceHead fenceJson (stripWs cs)))

def cleanTextS (s : String) : String :=
  String.mk (cleanText s.data)

/- Model of analyzeFinancialData (src/services/geminiService.ts).  The
   network is an oracle: the request either rejects with a message or
   resolves with an optional text.  The pair's second component counts the
   network requests actually issued. -/
inductive NetOutcome where
  | failure (msg : String)
  | success (text : Option String)

inductive AnalyzeError where
  | configError (msg : String)
  | analysisError (msg : String)

def apiKeyMissingMsg : String :=
  "ไม่พบ API Key กรุณาตั้งค่า Environment Variable (VITE_API_KEY)"

def noResponseMsg : String := "ไม่ได้รับข้อมูลตอบกลับจาก AI"

def analysisFailMsgHead : String := "เกิดข้อผิดพลาดในการวิเคราะห์ข้อมูล: "

/- Stand-in for the engine-dependent JSON.parse SyntaxError message; no claim
   inspects its value. -/
def jsonSyntaxErrMsg : String := "Unexpected token in JSON"

/- Model of `import.meta.env.VITE_API_KEY || ''`: an absent variable and an
   empty string both yield the empty key. -/
def apiKeyOf : Option String → String
  | none => ""
  | some s => s

/- JS truthiness of `response.text`: undefined and the empty string are falsy. -/
def responseTextTruthy : Option String → Bool
  | none => false
  | some s => !(s == "")

def analyzeFinancialData (apiKey : String) (net : NetOutcome) :
    Except AnalyzeError Json × Nat :=
  if apiKey = "" then
    (Except.error (AnalyzeError.configError apiKeyMissingMsg), 0)
  else
    match net with
    | NetOutcome.failure msg =>
      (Except.error (AnalyzeError.analysisError (analysisFailMsgHead ++ msg)), 1)
    | NetOutcome.success t =>
      if responseTextTruthy t then
        match jsonParseS (cleanTextS (t.getD "")) with
        | some j => (Except.ok j, 1)
        | none =>
          (Except.error (AnalyzeError.analysisError
            (analysisFailMsgHead ++ jsonSyntaxErrMsg)), 1)
      else
        (Except.error (AnalyzeError.analysisError
          (analysisFailMsgHead ++ noResponseMsg)), 1)

/- Discriminator: the error thrown from inside the try block of
   analyzeFinancialData (the generic analysis-failure wrapper). -/
def isWrappedError : Except AnalyzeError Json → Bool
  | Except.error (AnalyzeError.analysisError _) => true
  | _ => false

/- Field access on a parsed object; later duplicate keys win, as in JS. -/
def lookupLast : List (String × Json) → String → Option Json
  | [], _ => none
  | (k', v) :: rest, k =>
    match lookupLast rest k with
    | some r => some r
    | none => if k' = k then some v else none

def Json.getField : Json → String → Option Json
  | Json.jobj fs, k => lookupLast fs k
  | _, _ => none

def Json.arrayElems : Json → List Json
  | Json.jarr xs => xs
  | _ => []

def validStatus (s : String) : Bool :=
  s == "good" || s == "warning" || s == "critical"

def validTrend (s : String) : Bool :=
  s == "increase" || s == "decrease"

def badStatusField (e : Json) : Bool :=
  match e.getField "status" with
  | some (Json.jstr s) => !(validStatus s)
  | _ => false

def badTrendField (e : Json) : Bool :=
  match e.getField "trend" with
  | some (Json.jstr s) => !(validTrend s)
  | _ => false

/- The claim's notion of an enum field outside its closed set: some ratio has
   a status other than good/warning/critical, or some significant change has
   a trend other than increase/decrease. -/
def hasInvalidEnum (j : Json) : Bool :=
  ((j.getField "ratios").getD (Json.jarr [])).arrayElems.any badStatusField
  || ((j.getField "significantChanges").getD (Json.jarr [])).arrayElems.any badTrendField

/- Application state machine (src/App.tsx).  AppState is the enum from
   src/types.ts; handleFileUpload is modelled as the sequence of UI effects it
   performs, parameterised by the number of progress-interval ticks that fire
   before the analysis call settles and by the call's outcome. -/
inductive AppState where
  | UPLOAD
  | ANALYZING
  | RESULT
  | ERROR
deriving DecidableEq

inductive UiEvent where
  | setState (s : AppState)
  | setProgress (p : Nat)
  | waitMs (n : Nat)
deriving DecidableEq

/- One interval tick: `if (prev >= 90) return prev; return prev + 2;` -/
def tickProgress (p : Nat) : Nat :=
  if p ≥ 90 then p else p + 2

def handleFileUpload (k : Nat) (outcome : Except AnalyzeError Json) : List UiEvent :=
  [UiEvent.setState AppState.ANALYZING, UiEvent.setProgress 0]
  ++ (List.range k).map (fun i => UiEvent.setProgress (tickProgress^[i + 1] 0))
  ++ (match outcome with
      | Except.ok _ =>
        [UiEvent.setProgress 100, UiEvent.waitMs 500, UiEvent.setState AppState.RESULT]
      | Except.error _ => [UiEvent.setState AppState.ERROR])

def lastSetState : List UiEvent → Option AppState
  | [] => none
  | UiEvent.setState s :: rest =>
    match lastSetState rest with
    | some s' => some s'
    | none => some s
  | _ :: rest => lastSetState rest

/- File classification (handleFileChange in src/components/FileUpload.tsx):
   name.endsWith is case-sensitive, type.includes is substring containment. -/
inductive FileClass where
  | tabular
  | opaqueBinary
deriving DecidableEq

/- Substring containment, as String.includes: some rotating window of the
   subject starts with the pattern. -/
def containsSub (pat : List Char) : List Char → Bool
  | [] => pat.isEmpty
  | c :: rest => pat.isPrefixOf (c :: rest) || containsSub pat rest

def isSpreadsheetFile (name ty : String) : Bool :=
  List.isSuffixOf ".xlsx".data name.data
  || List.isSuffixOf ".xls".data name.data
  || List.isSuffixOf ".csv".data name.data
  || containsSub "spreadsheet".data ty.data
  || containsSub "excel".data ty.data
  || ty == "text/csv"

def classifyFile (name ty : String) : FileClass :=
  if isSpreadsheetFile name ty then FileClass.tabular else FileClass.opaqueBinary

/- Typed view of the analysis data as the dashboard consumes it (the TS
   interfaces of src/types.ts, with runtime-optional collections as Option,
   matching the optional chaining the component actually performs).  Numeric
   fields are modelled as integers; no claim depends on fractional values at
   this layer. -/
structure FinancialRatio where
  name : String
  value : Int
  unit : String
  status : String
  description : String
deriving DecidableEq

structure DepartmentAnalysis where
  name : String
  revenue : Int
  expense : Int
  profit : Int
  liquidityComment : String
deriving DecidableEq

structure SignificantChange where
  item : String
  amount : Int
  percentage : String
  trend : String
  reason : String
  relatedDepartment : Option String
deriving DecidableEq

structure AnalysisResult where
  overallAnalysis : String
  formalReport : String
  ratios : Option (List FinancialRatio)
  departments : Option (List DepartmentAnalysis)
  significantChanges : Option (List SignificantChange)
  topHighItems : Option (List String)
  topLowItems : Option (List String)

/- filteredChanges (Dashboard, src/components/FileUpload.tsx):
   an undefined collection yields []; selecting All returns everything;
   otherwise keep entries whose relatedDepartment strictly equals the
   selection (the second disjunct of the source predicate is kept verbatim
   even though it cannot fire in the non-All branch). -/
def filteredChanges (selectedDept : String)
    (changes : Option (List SignificantChange)) : List SignificantChange :=
  match changes with
  | none => []
  | some cs =>
    if selectedDept = "All" then cs
    else cs.filter (fun c =>
      c.relatedDepartment == some selectedDept
      || (c.relatedDepartment == some "General" && selectedDept == "All"))

/- The table cell `item.relatedDepartment || 'General'` (JS falsiness: both
   undefined and the empty string fall back). -/
def displayedDept (c : SignificantChange) : String :=
  match c.relatedDepartment with
  | none => "General"
  | some s => if s = "" then "General" else s

/- The export cell `item.relatedDepartment || "N/A"`. -/
def exportDeptCell (c : SignificantChange) : String :=
  match c.relatedDepartment with
  | none => "N/A"
  | some s => if s = "" then "N/A" else s

/- handleExportExcel (Dashboard): builds the workbook as an ordered list of
   named sheets of cell rows. -/
inductive Cell where
  | str (s : String)
  | num (n : Int)
deriving DecidableEq

def reportSheetRows (d : AnalysisResult) (dateStr : String) : List (List Cell) :=
  [[Cell.str "SmartAcc Analyst Report"],
   [Cell.str "วันที่พิมพ์:", Cell.str dateStr],
   [],
   [Cell.str "สรุปผู้บริหาร"],
   [Cell.str d.overallAnalysis],
   [],
   [Cell.str "---------------------------------------------------"],
   [],
   [Cell.str "บทรายงานฉบับเต็ม"],
   [Cell.str d.formalReport]]

def changesHeaderRow : List Cell :=
  [Cell.str "รายการ", Cell.str "หน่วยงาน", Cell.str "แนวโน้ม",
   Cell.str "เปลี่ยนแปลง (%)", Cell.str "จำนวนเงิน", Cell.str "สาเหตุ"]

def changeRow (c : SignificantChange) : List Cell :=
  [Cell.str c.item, Cell.str (exportDeptCell c),
   Cell.str (if c.trend = "increase" then "เพิ่มขึ้น" else "ลดลง"),
   Cell.str c.percentage, Cell.num c.amount, Cell.str c.reason]

def ratiosHeaderRow : List Cell :=
  [Cell.str "อัตราส่วน", Cell.str "ค่า", Cell.str "หน่วย",
   Cell.str "สถานะ", Cell.str "คำอธิบาย"]

def ratioRow (r : FinancialRatio) : List Cell :=
  [Cell.str r.name, Cell.num r.value, Cell.str r.unit,
   Cell.str r.status, Cell.str r.description]

/- `data.significantChanges?.length > 0` (undefined compares false). -/
def changesCount (d : AnalysisResult) : Nat :=
  (d.significantChanges.getD []).length

def ratiosCount (d : AnalysisResult) : Nat :=
  (d.ratios.getD []).length

def handleExportExcel (d : AnalysisResult) (dateStr : String) :
    List (String × List (List Cell)) :=
  [("Executive Report", reportSheetRows d dateStr)]
  ++ (if changesCount d > 0 then
        [("Variance Analysis",
          changesHeaderRow :: (d.significantChanges.getD []).map changeRow)]
      else [])
  ++ (if ratiosCount d > 0 then
        [("Financial Ratios",
          ratiosHeaderRow :: (d.ratios.getD []).map ratioRow)]
      else [])

/- The two code-fence wrappings named by the spec: a leading triple-backtick
   marker optionally followed by the json token, and a trailing marker. -/
def wrapJsonFence (t : String) : String := "```json\n" ++ t ++ "\n```"

def wrapBareFence (t : String) : String := "```\n" ++ t ++ "\n```"

/- Whitespace lemmas used by the fence-stripping argument. -/

theorem dropWs_cons_ws (c : Char) (cs : List Char) (h : isWsChar c = true) :
    dropWs (c :: cs) = dropWs cs := by
  simp [dropWs, h]

theorem dropWs_cons_not_ws (c : Char) (cs : List Char) (h : isWsChar c = false) :
    dropWs (c :: cs) = c :: cs := by
  simp [dropWs, h]

theorem length_dropWs_le (cs : List Char) : (dropWs cs).length ≤ cs.length := by
  induction cs with
  | nil => simp [dropWs]
  | cons c cs ih =>
    by_cases h : isWsChar c = true
    · rw [dropWs_cons_ws c cs h]
      exact Nat.le_trans ih (Nat.le_succ _)
    · rw [dropWs_cons_not_ws c cs (by simpa using h)]

theorem dropWs_head_not_ws (cs : List Char) :
    dropWs cs = [] ∨ ∃ c cs', dropWs cs = c :: cs' ∧ isWsChar c = false := by
  induction cs with
  | nil => left; rfl
  | cons c cs ih =>
    by_cases h : isWsChar c = true
    · rw [dropWs_cons_ws c cs h]; exact ih
    · right
      exact ⟨c, cs, dropWs_cons_not_ws c cs (by simpa using h), by simpa using h⟩

theorem dropWs_idem (cs : List Char) : dropWs (dropWs cs) = dropWs cs := by
  rcases dropWs_head_not_ws cs with h | ⟨c, cs', h, hc⟩
  · rw [h]; rfl
  · rw [h, dropWs_cons_not_ws c cs' hc]

theorem dropWs_append_of_ne_nil (a b : List Char) (h : dropWs a ≠ []) :
    dropWs (a ++ b) = dropWs a ++ b := by
  induction a with
  | nil => simp [dropWs] at h
  | cons c a ih =>
    by_cases hc : isWsChar c = true
    · rw [dropWs_cons_ws c a hc] at h
      rw [List.cons_append, dropWs_cons_ws c (a ++ b) hc, ih h,
        dropWs_cons_ws c a hc]
    · rw [List.cons_append, dropWs_cons_not_ws c (a ++ b) (by simpa using hc),
        dropWs_cons_not_ws c a (by simpa using hc), List.cons_append]

theorem dropWs_append_allws (a b : List Char) (h : ∀ c ∈ a, isWsChar c = true) :
    dropWs (a ++ b) = dropWs b := by
  induction a with
  | nil => rfl
  | cons c a ih =>
    rw [List.cons_append, dropWs_cons_ws c (a ++ b) (h c (List.mem_cons_self c a))]
    exact ih (fun x hx => h x (List.mem_cons_of_mem c hx))

theorem dropWs_decomp (cs : List Char) :
    ∃ w, cs = w ++ dropWs cs ∧ ∀ c ∈ w, isWsChar c = true := by
  induction cs with
  | nil => exact ⟨[], rfl, by simp⟩
  | cons c cs ih =>
    by_cases h : isWsChar c = true
    · obtain ⟨w, hw, hall⟩ := ih
      refine ⟨c :: w, ?_, ?_⟩
      · rw [dropWs_cons_ws c cs h, List.cons_append]
        exact congrArg (c :: ·) hw
      · intro x hx
        rcases List.mem_cons.mp hx with rfl | hx
        · exact h
        · exact hall x hx
    · refine ⟨[], ?_, by simp⟩
      rw [dropWs_cons_not_ws c cs (by simpa using h)]
      rfl

theorem rdropWs_append_allws (a w : List Char) (h : ∀ c ∈ w, isWsChar c = true) :
    rdropWs (a ++ w) = rdropWs a := by
  unfold rdropWs
  rw [List.reverse_append, dropWs_append_allws w.reverse a.reverse
    (fun c hc => h c (List.mem_reverse.mp hc))]

theorem rdropWs_append_not_ws (a : List Char) (d : Char) (h : isWsChar d = false) :
    rdropWs (a ++ [d]) = a ++ [d] := by
  unfold rdropWs
  rw [List.reverse_append]
  simp only [List.reverse_cons, List.reverse_nil, List.nil_append, List.singleton_append]
  rw [dropWs_cons_not_ws d a.reverse h]
  rw [List.reverse_cons, List.reverse_reverse]

theorem rdropWs_decomp (cs : List Char) :
    ∃ w, cs = rdropWs cs ++ w ∧ ∀ c ∈ w, isWsChar c = true := by
  obtain ⟨w, hw, hall⟩ := dropWs_decomp cs.reverse
  refine ⟨w.reverse, ?_, fun c hc => hall c (List.mem_reverse.mp hc)⟩
  unfold rdropWs
  calc cs = cs.reverse.reverse := (List.reverse_reverse cs).symm
    _ = (w ++ dropWs cs.reverse).reverse := by rw [← hw]
    _ = (dropWs cs.reverse).reverse ++ w.reverse := List.reverse_append _ _

theorem rdropWs_idem (cs : List Char) : rdropWs (rdropWs cs) = rdropWs cs := by
  unfold rdropWs
  rw [List.reverse_reverse, dropWs_idem]

theorem dropWs_rdropWs_of_fixed (u : List Char) (h : dropWs u = u) :
    dropWs (rdropWs u) = rdropWs u := by
  obtain ⟨w, hw, _⟩ := rdropWs_decomp u
  rcases hr : rdropWs u with _ | ⟨d, ds⟩
  · rfl
  · rcases dropWs_head_not_ws u with h0 | ⟨c, cs', hu, hc⟩
    · rw [h] at h0
      subst h0
      simp [rdropWs, dropWs] at hr
    · rw [h] at hu
      rw [hr] at hw
      rw [hu, List.cons_append] at hw
      injection hw with h1 _
      subst h1
      exact dropWs_cons_not_ws c ds hc

theorem stripWs_idem (cs : List Char) : stripWs (stripWs cs) = stripWs cs := by
  unfold stripWs
  rw [dropWs_rdropWs_of_fixed (dropWs cs) (dropWs_idem cs), rdropWs_idem]

/- Head conditions for a successful parse. -/

theorem parseValue_nil (f : Nat) : parseValue f [] = none := by
  cases f <;> rfl

theorem parseValue_cons_bad (f : Nat) (c : Char) (cs : List Char)
    (h : isWsChar c = true ∨ c = '`') : parseValue f (c :: cs) = none := by
  cases f with
  | zero => rfl
  | succ f =>
    have hc : c = ' ' ∨ c = '\t' ∨ c = '\n' ∨ c = '\r' ∨ c = '`' := by
      rcases h with h | h
      · simp [isWsChar] at h
        tauto
      · tauto
    rcases hc with rfl | rfl | rfl | rfl | rfl <;> rfl

theorem parseTop_shape (u : List Char) (v : Json) (h : parseTop u = some v) :
    ∃ c cs, u = c :: cs ∧ isWsChar c = false ∧ c ≠ '`' := by
  cases u with
  | nil =>
    rw [parseTop, parseValue_nil] at h
    exact absurd h (by simp)
  | cons c cs =>
    refine ⟨c, cs, rfl, ?_, ?_⟩
    · by_cases hw : isWsChar c = true
      · rw [parseTop, parseValue_cons_bad _ c cs (Or.inl hw)] at h
        exact absurd h (by simp)
      · simpa using hw
    · intro hb
      rw [parseTop, parseValue_cons_bad _ c cs (Or.inr hb)] at h
      exact absurd h (by simp)

/- The whole fence-stripping computation on a wrapped payload: wrapping any
   text whose stripped form starts with a non-backtick character and then
   cleaning recovers exactly the stripped text. -/

theorem isPrefixOf_fenceMark_false (c : Char) (ys : List Char) (h : c ≠ '`') :
    fenceMark.isPrefixOf (c :: ys) = false := by
  simp [fenceMark, List.isPrefixOf]
  intro hc
  exact absurd hc.symm h

theorem isPrefixOf_fenceJson_bare (xs : List Char) :
    fenceJson.isPrefixOf ('`' :: '`' :: '`' :: '\n' :: xs) = false := by
  simp [fenceJson, List.isPrefixOf]

theorem dropTail3_append_fenceMark (x : List Char) :
    dropTail3 (x ++ fenceMark) = x := by
  unfold dropTail3
  rw [List.reverse_append, List.drop_left' (by rfl), List.reverse_reverse]

theorem stripFenceTail_of_tail (x : List Char) :
    stripFenceTail (x ++ fenceMark) = rdropWs (dropTail3 (x ++ fenceMark)) := by
  unfold stripFenceTail
  rw [if_pos]
  exact List.isSuffixOf_iff_suffix.mpr (List.suffix_append x fenceMark)

theorem stripFenceHead_no (fence cs : List Char) (h : fence.isPrefixOf cs = false) :
    stripFenceHead fence cs = cs := by
  simp [stripFenceHead, h]

theorem cleanText_tail_common (A : List Char) (c : Char) (S' : List Char)
    (hS : stripWs A = c :: S') :
    stripFenceTail (dropWs (A ++ '\n' :: fenceMark)) = stripWs A := by
  have hD : dropWs A ≠ [] := by
    intro h0
    rw [stripWs, h0] at hS
    exact absurd hS (by simp [rdropWs, dropWs])
  have h1 : dropWs (A ++ '\n' :: fenceMark) = dropWs A ++ '\n' :: fenceMark :=
    dropWs_append_of_ne_nil A ('\n' :: fenceMark) hD
  obtain ⟨w, hw, hall⟩ := rdropWs_decomp (dropWs A)
  have hSW : dropWs A = stripWs A ++ w := by
    rw [stripWs]
    exact hw
  have hshape : dropWs A ++ '\n' :: fenceMark
      = (c :: S' ++ (w ++ ['\n'])) ++ fenceMark := by
    rw [hSW, hS]
    simp
  rw [h1, hshape, stripFenceTail_of_tail, dropTail3_append_fenceMark]
  have hregroup : c :: S' ++ (w ++ ['\n']) = (c :: S') ++ (w ++ ['\n']) := rfl
  rw [hregroup, rdropWs_append_allws (c :: S') (w ++ ['\n']) ?_]
  · rw [← hS, stripWs, rdropWs_idem, ← stripWs]
  · intro x hx
    rcases List.mem_append.mp hx with hx | hx
    · exact hall x hx
    · rcases List.mem_singleton.mp hx with rfl
      rfl

theorem cleanText_fence_common (A : List Char) (c : Char) (S' : List Char)
    (hS : stripWs A = c :: S') (hc : c ≠ '`') :
    stripFenceTail (stripFenceHead fenceMark
      (dropWs (A ++ '\n' :: fenceMark))) = stripWs A := by
  have hD : dropWs A ≠ [] := by
    intro h0
    rw [stripWs, h0] at hS
    exact absurd hS (by simp [rdropWs, dropWs])
  have h1 : dropWs (A ++ '\n' :: fenceMark) = dropWs A ++ '\n' :: fenceMark :=
    dropWs_append_of_ne_nil A ('\n' :: fenceMark) hD
  obtain ⟨w, hw, hall⟩ := rdropWs_decomp (dropWs A)
  have hSW : dropWs A = stripWs A ++ w := by
    rw [stripWs]
    exact hw
  have hform : dropWs A ++ '\n' :: fenceMark
      = c :: (S' ++ w ++ '\n' :: fenceMark) := by
    rw [hSW, hS]
    simp
  rw [h1, hform,
    stripFenceHead_no fenceMark _
      (isPrefixOf_fenceMark_false c (S' ++ w ++ '\n' :: fenceMark) hc), ← hform, ← h1]
  exact cleanText_tail_common A c S' hS

theorem stripFenceHead_yes (fence cs : List Char) (h : fence.isPrefixOf cs = true) :
    stripFenceHead fence cs = dropWs (cs.drop fence.length) := by
  simp [stripFenceHead, h]

theorem stripWs_eq_self_ends (c : Char) (mid : List Char) (d : Char)
    (hc : isWsChar c = false) (hd : isWsChar d = false) :
    stripWs (c :: (mid ++ [d])) = c :: (mid ++ [d]) := by
  rw [stripWs, dropWs_cons_not_ws _ _ hc]
  have hre : c :: (mid ++ [d]) = (c :: mid) ++ [d] := rfl
  rw [hre, rdropWs_append_not_ws _ _ hd]

theorem cleanText_wrapJson_data (A : List Char) (c : Char) (S' : List Char)
    (hS : stripWs A = c :: S') (hc : c ≠ '`') :
    cleanText (fenceJson ++ '\n' :: (A ++ '\n' :: fenceMark)) = stripWs A := by
  have hW : fenceJson ++ '\n' :: (A ++ '\n' :: fenceMark)
      = '`' :: ((['`', '`', 'j', 's', 'o', 'n', '\n'] ++ (A ++ ['\n', '`', '`'])) ++ ['`']) := by
    simp [fenceJson, fenceMark]
  unfold cleanText
  rw [hW, stripWs_eq_self_ends _ _ _ (by rfl) (by rfl), ← hW]
  rw [stripFenceHead_yes fenceJson _
    (List.isPrefixOf_iff_prefix.mpr (List.prefix_append fenceJson _)),
    List.drop_left, dropWs_cons_ws '\n' _ (by rfl)]
  exact cleanText_fence_common A c S' hS hc

theorem cleanText_wrapBare_data (A : List Char) (c : Char) (S' : List Char)
    (hS : stripWs A = c :: S') :
    cleanText (fenceMark ++ '\n' :: (A ++ '\n' :: fenceMark)) = stripWs A := by
  have hW : fenceMark ++ '\n' :: (A ++ '\n' :: fenceMark)
      = '`' :: ((['`', '`', '\n'] ++ (A ++ ['\n', '`', '`'])) ++ ['`']) := by
    simp [fenceMark]
  have hW2 : fenceMark ++ '\n' :: (A ++ '\n' :: fenceMark)
      = '`' :: '`' :: '`' :: '\n' :: (A ++ '\n' :: fenceMark) := rfl
  unfold cleanText
  rw [hW, stripWs_eq_self_ends _ _ _ (by rfl) (by rfl), ← hW]
  rw [hW2, stripFenceHead_no fenceJson _ (isPrefixOf_fenceJson_bare _), ← hW2]
  rw [stripFenceHead_yes fenceMark _
    (List.isPrefixOf_iff_prefix.mpr (List.prefix_append fenceMark ('\n' :: (A ++ '\n' :: fenceMark)))),
    List.drop_left, dropWs_cons_ws '\n' _ (by rfl)]
  exact cleanText_tail_common A c S' hS

/- String-level glue for the fence-wrap argument. -/

theorem wrapJsonFence_data (t : String) :
    (wrapJsonFence t).data = fenceJson ++ '\n' :: (t.data ++ '\n' :: fenceMark) := by
  unfold wrapJsonFence
  rw [String.data_append, String.data_append]
  have h1 : ("```json\n" : String).data = fenceJson ++ ['\n'] := rfl
  have h2 : ("\n```" : String).data = '\n' :: fenceMark := rfl
  rw [h1, h2]
  simp

theorem wrapBareFence_data (t : String) :
    (wrapBareFence t).data = fenceMark ++ '\n' :: (t.data ++ '\n' :: fenceMark) := by
  unfold wrapBareFence
  rw [String.data_append, String.data_append]
  have h1 : ("```\n" : String).data = fenceMark ++ ['\n'] := rfl
  have h2 : ("\n```" : String).data = '\n' :: fenceMark := rfl
  rw [h1, h2]
  simp

theorem jsonParseS_of_clean_eq_strip (w : String) (t : String) (v : Json)
    (hclean : cleanText w.data = stripWs t.data)
    (h : jsonParseS t = some v) :
    jsonParseS (cleanTextS w) = some v := by
  show parseTop (stripWs (String.mk (cleanText w.data)).data) = some v
  have hdata : (String.mk (cleanText w.data)).data = cleanText w.data := rfl
  rw [hdata, hclean, stripWs_idem]
  exact h

/- Evaluation lemmas for the analysis client model. -/

theorem analyze_empty_key (net : NetOutcome) :
    analyzeFinancialData "" net
      = (Except.error (AnalyzeError.configError apiKeyMissingMsg), 0) := rfl

theorem analyze_success_eval (key s : String) (hk : ¬ key = "") (hs : ¬ s = "") :
    analyzeFinancialData key (NetOutcome.success (some s)) =
      (match jsonParseS (cleanTextS s) with
       | some j => (Except.ok j, 1)
       | none =>
         (Except.error (AnalyzeError.analysisError
           (analysisFailMsgHead ++ jsonSyntaxErrMsg)), 1)) := by
  unfold analyzeFinancialData
  rw [if_neg hk]
  have ht : responseTextTruthy (some s) = true := by
    simp [responseTextTruthy, hs]
  simp [ht, Option.getD]

theorem analyze_falsy_eval (key : String) (t : Option String)
    (hk : ¬ key = "") (ht : responseTextTruthy t = false) :
    analyzeFinancialData key (NetOutcome.success t) =
      (Except.error (AnalyzeError.analysisError
        (analysisFailMsgHead ++ noResponseMsg)), 1) := by
  unfold analyzeFinancialData
  rw [if_neg hk]
  simp [ht]

theorem analyze_ok_parsed (key s : String) (j : Json) (n : Nat)
    (hk : ¬ key = "")
    (h : analyzeFinancialData key (NetOutcome.success (some s)) = (Except.ok j, n)) :
    jsonParseS (cleanTextS s) = some j := by
  by_cases hs : s = ""
  · subst hs
    rw [analyze_falsy_eval key (some "") hk (by rfl)] at h
    exact absurd (congrArg Prod.fst h) (by simp)
  · rw [analyze_success_eval key s hk hs] at h
    rcases hp : jsonParseS (cleanTextS s) with _ | j'
    · rw [hp] at h
      exact absurd (congrArg Prod.fst h) (by simp)
    · rw [hp] at h
      have := congrArg Prod.fst h
      simp at this
      rw [this]

/- Progress-tick invariant: starting from 0, tick-driven progress stays even
   and never exceeds 90. -/
theorem tickIter_inv (k : Nat) :
    tickProgress^[k] 0 ≤ 90 ∧ tickProgress^[k] 0 % 2 = 0 := by
  induction k with
  | zero => simp
  | succ k ih =>
    rw [Function.iterate_succ_apply']
    obtain ⟨h1, h2⟩ := ih
    generalize hq : tickProgress^[k] 0 = p at h1 h2 ⊢
    unfold tickProgress
    split <;> omega

/- Shape of the success and failure traces of handleFileUpload. -/

theorem handleFileUpload_ok (k : Nat) (j : Json) :
    handleFileUpload k (Except.ok j) =
      ([UiEvent.setState AppState.ANALYZING, UiEvent.setProgress 0]
        ++ (List.range k).map (fun i => UiEvent.setProgress (tickProgress^[i + 1] 0)))
      ++ [UiEvent.setProgress 100, UiEvent.waitMs 500,
          UiEvent.setState AppState.RESULT] := by
  unfold handleFileUpload
  simp

theorem handleFileUpload_error (k : Nat) (e : AnalyzeError) :
    handleFileUpload k (Except.error e) =
      ([UiEvent.setState AppState.ANALYZING, UiEvent.setProgress 0]
        ++ (List.range k).map (fun i => UiEvent.setProgress (tickProgress^[i + 1] 0)))
      ++ [UiEvent.setState AppState.ERROR] := by
  unfold handleFileUpload
  simp

theorem lastSetState_append_single (xs : List UiEvent) (s : AppState) :
    lastSetState (xs ++ [UiEvent.setState s]) = some s := by
  induction xs with
  | nil => rfl
  | cons e xs ih =>
    cases e with
    | setState s' =>
      rw [List.cons_append]
      show (match lastSetState (xs ++ [UiEvent.setState s]) with
            | some s'' => some s''
            | none => some s') = some s
      rw [ih]
    | setProgress p =>
      rw [List.cons_append]
      show lastSetState (xs ++ [UiEvent.setState s]) = some s
      exact ih
    | waitMs n =>
      rw [List.cons_append]
      show lastSetState (xs ++ [UiEvent.setState s]) = some s
      exact ih

/- Classification helpers. -/

theorem containsSub_iff_infix (pat s : List Char) :
    containsSub pat s = true ↔ pat <:+: s := by
  induction s with
  | nil =>
    show pat.isEmpty = true ↔ _
    rw [List.isEmpty_iff, List.infix_nil]
  | cons c rest ih =>
    show (pat.isPrefixOf (c :: rest) || containsSub pat rest) = true ↔ _
    rw [Bool.or_eq_true, List.isPrefixOf_iff_prefix, ih, List.infix_cons_iff]

theorem isSpreadsheetFile_iff (name ty : String) :
    isSpreadsheetFile name ty = true
      ↔ (".xlsx".data <:+ name.data ∨ ".xls".data <:+ name.data
         ∨ ".csv".data <:+ name.data ∨ "spreadsheet".data <:+: ty.data
         ∨ "excel".data <:+: ty.data ∨ ty = "text/csv") := by
  unfold isSpreadsheetFile
  simp [List.isSuffixOf_iff_suffix, containsSub_iff_infix, or_assoc]

theorem classify_tabular_iff (name ty : String) :
    classifyFile name ty = FileClass.tabular ↔ isSpreadsheetFile name ty = true := by
  unfold classifyFile
  by_cases hb : isSpreadsheetFile name ty = true
  · simp [hb]
  · simp [hb]

/-- Claim C3: when the configured API credential is empty or absent, every call
of analyzeFinancialData throws the configuration error before issuing any
network request, and no network call is made at all (the request counter stays
at zero), for every possible network behaviour. -/
theorem c3_missing_key_no_network (net : NetOutcome) :
    analyzeFinancialData (apiKeyOf none) net
        = (Except.error (AnalyzeError.configError apiKeyMissingMsg), 0)
      ∧ analyzeFinancialData (apiKeyOf (some "")) net
        = (Except.error (AnalyzeError.configError apiKeyMissingMsg), 0) :=
  ⟨analyze_empty_key net, analyze_empty_key net⟩

/-- Claim C10: if the request resolves but the response carries empty or
missing text, analyzeFinancialData throws an error whose message is exactly
the fixed no-response notice wrapped by the generic failure message head,
rather than ever returning a parsed result. -/
theorem c10_empty_response_error (key : String) (t : Option String)
    (hk : ¬ key = "") (ht : responseTextTruthy t = false) :
    analyzeFinancialData key (NetOutcome.success t)
      = (Except.error (AnalyzeError.analysisError
          (analysisFailMsgHead ++ noResponseMsg)), 1) :=
  analyze_falsy_eval key t hk ht

/-- Witness for claim C10 at a concrete key, for both an absent text and an
empty text. -/
theorem c10_empty_response_error_witness :
    analyzeFinancialData "k" (NetOutcome.success none)
        = (Except.error (AnalyzeError.analysisError
            (analysisFailMsgHead ++ noResponseMsg)), 1)
      ∧ analyzeFinancialData "k" (NetOutcome.success (some ""))
        = (Except.error (AnalyzeError.analysisError
            (analysisFailMsgHead ++ noResponseMsg)), 1) :=
  ⟨c10_empty_response_error "k" none (by decide) rfl,
   c10_empty_response_error "k" (some "") (by decide) rfl⟩

/-- Claim C7: in the Analyzing state one cosmetic tick maps progress p to
p + 2 when p is below 90 and leaves p unchanged from 90 on, and tick-driven
progress starting from 0 never exceeds 90. -/
theorem c7_tick_progress_behavior (p k : Nat) :
    (p < 90 → tickProgress p = p + 2)
    ∧ (90 ≤ p → tickProgress p = p)
    ∧ tickProgress^[k] 0 ≤ 90 := by
  refine ⟨?_, ?_, (tickIter_inv k).1⟩
  · intro h
    unfold tickProgress
    rw [if_neg (by omega)]
  · intro h
    unfold tickProgress
    rw [if_pos h]

/-- Witness for claim C7 at concrete progress values and tick counts. -/
theorem c7_tick_progress_behavior_witness :
    tickProgress 88 = 90 ∧ tickProgress 90 = 90 ∧ tickProgress^[60] 0 ≤ 90 :=
  ⟨(c7_tick_progress_behavior 88 60).1 (by decide),
   (c7_tick_progress_behavior 90 60).2.1 (by decide),
   (c7_tick_progress_behavior 0 60).2.2⟩

/-- Claim C6: on a successful resolution the trace of handleFileUpload ends
with forcing progress to 100, then the fixed 500 ms display delay, then the
transition to Result; Result is never entered earlier, every earlier progress
value is at most 90, and a failed resolution never enters Result at all. -/
theorem c6_result_after_full_progress (k : Nat) (j : Json) (err : AnalyzeError) :
    (∃ p, handleFileUpload k (Except.ok j)
        = p ++ [UiEvent.setProgress 100, UiEvent.waitMs 500,
                UiEvent.setState AppState.RESULT]
      ∧ UiEvent.setState AppState.RESULT ∉ p
      ∧ ∀ q, UiEvent.setProgress q ∈ p → q ≤ 90)
    ∧ UiEvent.setState AppState.RESULT ∉ handleFileUpload k (Except.error err) := by
  constructor
  · refine ⟨_, handleFileUpload_ok k j, ?_, ?_⟩
    · simp
    · intro q hq
      rcases List.mem_append.mp hq with h | h
      · simp at h
        omega
      · obtain ⟨i, _, hi⟩ := List.mem_map.mp h
        injection hi with h2
        rw [← h2]
        exact (tickIter_inv (i + 1)).1
  · rw [handleFileUpload_error]
    simp

/-- Claim C5: for every response text t that parses as JSON unwrapped,
wrapping t in leading and trailing code-fence markers (with or without the
json language token) and running it through the client's cleaning and parsing
yields exactly the result of parsing the unwrapped t. -/
theorem c5_fence_wrap_invariant (t : String) (v : Json)
    (h : jsonParseS t = some v) :
    jsonParseS (cleanTextS (wrapJsonFence t)) = some v
    ∧ jsonParseS (cleanTextS (wrapBareFence t)) = some v := by
  obtain ⟨c, S', hcons, _, hbt⟩ := parseTop_shape (stripWs t.data) v h
  constructor
  · refine jsonParseS_of_clean_eq_strip (wrapJsonFence t) t v ?_ h
    rw [wrapJsonFence_data]
    exact cleanText_wrapJson_data t.data c S' hcons hbt
  · refine jsonParseS_of_clean_eq_strip (wrapBareFence t) t v ?_ h
    rw [wrapBareFence_data]
    exact cleanText_wrapBare_data t.data c S' hcons

/-- Witness for claim C5 at a concrete response text. -/
theorem c5_fence_wrap_invariant_witness :
    jsonParseS (cleanTextS (wrapJsonFence "[1, 2]"))
        = some (Json.jarr [Json.jnum "1", Json.jnum "2"])
      ∧ jsonParseS (cleanTextS (wrapBareFence "[1, 2]"))
        = some (Json.jarr [Json.jnum "1", Json.jnum "2"]) :=
  c5_fence_wrap_invariant "[1, 2]" (Json.jarr [Json.jnum "1", Json.jnum "2"]) rfl

/-- Counterexample to claim C1: a well-formed JSON response whose ratio status
is the out-of-set value unknown is returned successfully by
analyzeFinancialData (no validation error), and the state machine lands in
Result, contradicting the claim that such a response raises a validation
error and never reaches Result. -/
theorem c1_enum_passthrough_cex :
    analyzeFinancialData "k"
        (NetOutcome.success (some "\x7b\"ratios\": [\x7b\"status\": \"unknown\"\x7d]\x7d"))
      = (Except.ok (Json.jobj
          [("ratios", Json.jarr [Json.jobj [("status", Json.jstr "unknown")]])]), 1)
    ∧ hasInvalidEnum (Json.jobj
        [("ratios", Json.jarr [Json.jobj [("status", Json.jstr "unknown")]])]) = true
    ∧ lastSetState (handleFileUpload 3 (Except.ok (Json.jobj
        [("ratios", Json.jarr [Json.jobj [("status", Json.jstr "unknown")]])])))
      = some AppState.RESULT :=
  ⟨rfl, rfl, rfl⟩

/-- Claim C1 as amended: if the response text is malformed JSON after
code-fence stripping, analyzeFinancialData throws the wrapped analysis error
and the state machine lands in Error, never in Result; however an enum field
outside its closed set inside well-formed JSON is not validated client-side
and passes through (schema enforcement is delegated to the API request's
response schema). -/
theorem c1_malformed_json_errors (key s : String) (k : Nat)
    (hk : ¬ key = "") (hp : jsonParseS (cleanTextS s) = none) :
    isWrappedError (analyzeFinancialData key (NetOutcome.success (some s))).1 = true
    ∧ lastSetState (handleFileUpload k
        (analyzeFinancialData key (NetOutcome.success (some s))).1)
      = some AppState.ERROR
    ∧ UiEvent.setState AppState.RESULT
        ∉ handleFileUpload k (analyzeFinancialData key (NetOutcome.success (some s))).1 := by
  have hres : ∃ m, (analyzeFinancialData key (NetOutcome.success (some s))).1
      = Except.error (AnalyzeError.analysisError m) := by
    by_cases hs : s = ""
    · subst hs
      rw [analyze_falsy_eval key (some "") hk rfl]
      exact ⟨analysisFailMsgHead ++ noResponseMsg, rfl⟩
    · rw [analyze_success_eval key s hk hs, hp]
      exact ⟨analysisFailMsgHead ++ jsonSyntaxErrMsg, rfl⟩
  obtain ⟨m, hm⟩ := hres
  rw [hm]
  refine ⟨rfl, ?_, ?_⟩
  · rw [handleFileUpload_error]
    exact lastSetState_append_single _ _
  · rw [handleFileUpload_error]
    simp

/-- Witness for the amended claim C1 at a concrete malformed response. -/
theorem c1_malformed_json_errors_witness :
    isWrappedError (analyzeFinancialData "k" (NetOutcome.success (some "not json"))).1 = true
    ∧ lastSetState (handleFileUpload 1
        (analyzeFinancialData "k" (NetOutcome.success (some "not json"))).1)
      = some AppState.ERROR
    ∧ UiEvent.setState AppState.RESULT
        ∉ handleFileUpload 1 (analyzeFinancialData "k" (NetOutcome.success (some "not json"))).1 :=
  c1_malformed_json_errors "k" "not json" 1 (by decide) rfl

/-- Counterexample to claim C2: the empty-object response is returned
successfully by analyzeFinancialData, yet none of the five collection fields
is present on the result, contradicting the claim that every successful
result carries all five collections. -/
theorem c2_missing_collections_cex :
    analyzeFinancialData "k" (NetOutcome.success (some "\x7b\x7d"))
      = (Except.ok (Json.jobj []), 1)
    ∧ Json.getField (Json.jobj []) "ratios" = none
    ∧ Json.getField (Json.jobj []) "departments" = none
    ∧ Json.getField (Json.jobj []) "significantChanges" = none
    ∧ Json.getField (Json.jobj []) "topHighItems" = none
    ∧ Json.getField (Json.jobj []) "topLowItems" = none :=
  ⟨rfl, rfl, rfl, rfl, rfl, rfl⟩

/-- Claim C2 as amended: the client performs no presence validation — every
successfully returned result is the parsed response verbatim, so the five
collection fields are present exactly when the raw response supplies them,
and downstream rendering does branch on missing collections. -/
theorem c2_result_is_parsed_verbatim (key s : String) (j : Json) (n : Nat)
    (hk : ¬ key = "")
    (h : analyzeFinancialData key (NetOutcome.success (some s)) = (Except.ok j, n)) :
    jsonParseS (cleanTextS s) = some j :=
  analyze_ok_parsed key s j n hk h

/-- Witness for the amended claim C2 at a concrete response supplying one
collection. -/
theorem c2_result_is_parsed_verbatim_witness :
    jsonParseS (cleanTextS "\x7b\"ratios\": []\x7d")
      = some (Json.jobj [("ratios", Json.jarr [])]) :=
  c2_result_is_parsed_verbatim "k" "\x7b\"ratios\": []\x7d"
    (Json.jobj [("ratios", Json.jarr [])]) 1 (by decide) rfl

/-- Counterexample to claim C9: the department filter does not treat an entry
with an absent relatedDepartment as belonging to General — filtering by
General drops it, while an entry explicitly tagged General is kept. -/
theorem c9_general_filter_excludes_missing_cex :
    filteredChanges "General"
        (some [⟨"Item A", 100, "+10%", "increase", "r", none⟩]) = []
    ∧ filteredChanges "General"
        (some [⟨"Item B", 100, "+10%", "increase", "r", some "General"⟩])
      = [⟨"Item B", 100, "+10%", "increase", "r", some "General"⟩] :=
  ⟨rfl, rfl⟩

/-- Claim C9 as amended: the client preserves the absence of
relatedDepartment (a successful result is the parsed JSON verbatim with no
General injected), but the filtering consumer does not treat absence as
General: such entries are dropped from every department-specific view and
appear only under All, while the General default is applied solely at the
presentation cells (table label General, export cell N/A). -/
theorem c9_missing_department_handling (c : SignificantChange) (d : String)
    (hnone : c.relatedDepartment = none) :
    (d ≠ "All" → filteredChanges d (some [c]) = [])
    ∧ filteredChanges "All" (some [c]) = [c]
    ∧ displayedDept c = "General"
    ∧ exportDeptCell c = "N/A"
    ∧ (∀ key s j n, ¬ key = "" →
        analyzeFinancialData key (NetOutcome.success (some s)) = (Except.ok j, n) →
        jsonParseS (cleanTextS s) = some j) := by
  refine ⟨?_, ?_, ?_, ?_, fun key s j n hk h => analyze_ok_parsed key s j n hk h⟩
  · intro hd
    simp [filteredChanges, hd, hnone]
  · simp [filteredChanges]
  · unfold displayedDept
    rw [hnone]
  · unfold exportDeptCell
    rw [hnone]

/-- Witness for the amended claim C9 at a concrete entry and department. -/
theorem c9_missing_department_handling_witness :
    filteredChanges "General"
        (some [⟨"Item A", 100, "+10%", "increase", "r", none⟩]) = []
    ∧ displayedDept ⟨"Item A", 100, "+10%", "increase", "r", none⟩ = "General" :=
  ⟨(c9_missing_department_handling ⟨"Item A", 100, "+10%", "increase", "r", none⟩
      "General" rfl).1 (by decide),
   (c9_missing_department_handling ⟨"Item A", 100, "+10%", "increase", "r", none⟩
      "General" rfl).2.2.1⟩

/-- Counterexample to claim C4: extension matching is case-sensitive and the
outcome also depends on the declared content type, so report.CSV with a
generic content type classifies as opaque (the claim says tabular), while the
same extension with type text/csv classifies as tabular — the mapping is not
stable per extension. -/
theorem c4_uppercase_csv_cex :
    classifyFile "report.CSV" "" = FileClass.opaqueBinary
    ∧ classifyFile "report.csv" "" = FileClass.tabular
    ∧ classifyFile "report.CSV" "text/csv" = FileClass.tabular :=
  ⟨rfl, rfl, rfl⟩

/-- Claim C4 as amended: classification deterministically returns exactly one
of tabular or opaque, and it is tabular precisely when the file name
case-sensitively ends in .xlsx, .xls or .csv, or the declared content type
contains spreadsheet or excel, or the type equals text/csv; the outcome
depends on both name and declared type, so report.CSV is tabular only via its
declared type and is opaque under a generic type, while statement.pdf is
opaque. -/
theorem c4_classification_characterization (name ty : String) :
    (classifyFile name ty = FileClass.tabular
      ↔ (".xlsx".data <:+ name.data ∨ ".xls".data <:+ name.data
         ∨ ".csv".data <:+ name.data ∨ "spreadsheet".data <:+: ty.data
         ∨ "excel".data <:+: ty.data ∨ ty = "text/csv"))
    ∧ (classifyFile name ty = FileClass.tabular
        ∨ classifyFile name ty = FileClass.opaqueBinary)
    ∧ ¬ (classifyFile name ty = FileClass.tabular
        ∧ classifyFile name ty = FileClass.opaqueBinary) := by
  refine ⟨?_, ?_, ?_⟩
  · rw [classify_tabular_iff]
    exact isSpreadsheetFile_iff name ty
  · unfold classifyFile
    by_cases hb : isSpreadsheetFile name ty = true
    · left
      simp [hb]
    · right
      simp [hb]
  · rintro ⟨h1, h2⟩
    rw [h1] at h2
    exact absurd h2 (by simp)

/-- Witness for the amended claim C4: concrete classifications derived
through the characterization. -/
theorem c4_classification_characterization_witness :
    classifyFile "report.csv" "" = FileClass.tabular
    ∧ classifyFile "statement.pdf" "application/pdf" = FileClass.opaqueBinary :=
  ⟨(c4_classification_characterization "report.csv" "").1.mpr
      (Or.inr (Or.inr (Or.inl (by decide)))),
   by
    rcases (c4_classification_characterization "statement.pdf" "application/pdf").2.1
      with h | h
    · exact absurd ((c4_classification_characterization
        "statement.pdf" "application/pdf").1.mp h) (by decide)
    · exact h⟩

/-- Counterexample to claim C8: when there are no significant changes and no
ratios, the export produces a workbook with only the Executive Report sheet,
not three sheets. -/
theorem c8_empty_data_single_sheet_cex :
    (handleExportExcel ⟨"a", "b", none, none, none, none, none⟩ "1/1/2567").map
        Prod.fst
      = ["Executive Report"]
    ∧ "Variance Analysis"
        ∉ (handleExportExcel ⟨"a", "b", none, none, none, none, none⟩ "1/1/2567").map
            Prod.fst
    ∧ "Financial Ratios"
        ∉ (handleExportExcel ⟨"a", "b", none, none, none, none, none⟩ "1/1/2567").map
            Prod.fst :=
  ⟨rfl, by decide, by decide⟩

/-- Claim C8 as amended: every export carries the Executive Report sheet
(title, print date, overall analysis, full report text); the Variance
Analysis sheet with the Thai variance headers is appended only when
significantChanges is non-empty, and the Financial Ratios sheet with the Thai
ratio headers only when ratios is non-empty. -/
theorem c8_export_sheets_characterization (d : AnalysisResult) (dateStr : String) :
    (handleExportExcel d dateStr).map Prod.fst
      = "Executive Report"
        :: ((if changesCount d > 0 then ["Variance Analysis"] else [])
            ++ (if ratiosCount d > 0 then ["Financial Ratios"] else []))
    ∧ (handleExportExcel d dateStr).lookup "Executive Report"
        = some (reportSheetRows d dateStr)
    ∧ (changesCount d > 0 →
        (handleExportExcel d dateStr).lookup "Variance Analysis"
          = some (changesHeaderRow :: (d.significantChanges.getD []).map changeRow))
    ∧ (ratiosCount d > 0 →
        (handleExportExcel d dateStr).lookup "Financial Ratios"
          = some (ratiosHeaderRow :: (d.ratios.getD []).map ratioRow)) := by
  by_cases hc : changesCount d > 0 <;> by_cases hr : ratiosCount d > 0 <;>
    simp [handleExportExcel, hc, hr, List.lookup]

/-- Witness for the amended claim C8 at a concrete dashboard data value with
one significant change and one ratio. -/
theorem c8_export_sheets_characterization_witness :
    (handleExportExcel
        ⟨"a", "b", some [⟨"CR", 1, "x", "good", "d"⟩], none,
         some [⟨"Item", 5, "+1%", "increase", "r", some "G"⟩], none, none⟩
        "1/1/2567").lookup "Variance Analysis"
      = some (changesHeaderRow
          :: [changeRow ⟨"Item", 5, "+1%", "increase", "r", some "G"⟩])
    ∧ (handleExportExcel
        ⟨"a", "b", some [⟨"CR", 1, "x", "good", "d"⟩], none,
         some [⟨"Item", 5, "+1%", "increase", "r", some "G"⟩], none, none⟩
        "1/1/2567").lookup "Financial Ratios"
      = some (ratiosHeaderRow :: [ratioRow ⟨"CR", 1, "x", "good", "d"⟩]) :=
  ⟨(c8_export_sheets_characterization
      ⟨"a", "b", some [⟨"CR", 1, "x", "good", "d"⟩], none,
       some [⟨"Item", 5, "+1%", "increase", "r", some "G"⟩], none, none⟩
      "1/1/2567").2.2.1 (by decide),
   (c8_export_sheets_characterization
      ⟨"a", "b", some [⟨"CR", 1, "x", "good", "d"⟩], none,
       some [⟨"Item", 5, "+1%", "increase", "r", some "G"⟩], none, none⟩
      "1/1/2567").2.2.2 (by decide)⟩
